import Mathlib

/-!
Verification of the investor-dash authorization/routing core.

This file gives a shallow embedding of the TypeScript edge functions of the
repository (`supabase/functions/data-write/index.ts`, the `data-read`
function, and `supabase/functions/admin-auth/index.ts`) and proves the
specification's claims about them.

Modelling conventions:
* JSON objects are association lists `List (String × α)`; an absent property
  is an absent key (`List.lookup` returns `none`).
* Nullable / possibly-undefined values are `Option`; JavaScript string
  truthiness (`null`, `undefined` and `""` are falsy) is `jsTruthyS`.
* Timestamps and amounts are integers (`Int`); the claims under study never
  depend on floating-point rounding.
* The PBKDF2 bit-derivation performed by `crypto.subtle.deriveBits` is an
  opaque parameter `derive`; `none` models the call throwing (the exception
  is caught by the surrounding `try`).  Everything around it is embedded
  from the source.
* Database queries are modelled by passing the relevant row lists in, and
  write operations by returning a description of the storage call instead of
  performing it.
-/

namespace InvestorDash

/-! ### JavaScript string primitives -/

/-- ASCII whitespace, as stripped by `String.prototype.trim` and by the
forgiving-base64 decoder behind `atob`. -/
def jsWhitespaceChar (c : Char) : Bool :=
  c = ' ' || c = '\t' || c = '\n' || c = '\x0d' || c = '\x0c' || c = '\x0b'

/-- `s.trim()`. -/
def jsTrim (s : String) : String :=
  ⟨(((s.toList.dropWhile jsWhitespaceChar).reverse.dropWhile jsWhitespaceChar).reverse)⟩

/-- JavaScript truthiness of a nullable string: `null`, `undefined` and the
empty string are falsy. -/
def jsTruthyS : Option String → Bool
  | none => false
  | some s => s ≠ ""

/-- `a || b` for a nullable string `a` and a string default `b`. -/
def jsOrS (a : Option String) (b : String) : String :=
  match a with
  | none => b
  | some s => if s = "" then b else s

/-- `needle` is a prefix of `hay`. -/
def listPrefixOf : List Char → List Char → Bool
  | [], _ => true
  | _ :: _, [] => false
  | a :: as, b :: bs => a = b && listPrefixOf as bs

/-- `needle` occurs contiguously somewhere in `hay`. -/
def listSubstr (needle : List Char) : List Char → Bool
  | [] => listPrefixOf needle []
  | c :: rest => listPrefixOf needle (c :: rest) || listSubstr needle rest

/-- `s.includes(sub)`: substring containment. -/
def jsIncludes (s sub : String) : Bool :=
  listSubstr sub.toList s.toList

/-- Split on a separator character, keeping empty pieces, with the piece
seen so far carried in reverse. -/
def jsSplitCharAux (sep : Char) : List Char → List Char → List String
  | [], acc => [⟨acc.reverse⟩]
  | c :: rest, acc =>
    if c = sep then ⟨acc.reverse⟩ :: jsSplitCharAux sep rest []
    else jsSplitCharAux sep rest (c :: acc)

/-- `s.split(sep)` for a one-character separator: `"a$b$c"` gives
`["a", "b", "c"]`, `""` gives `[""]`. -/
def jsSplitChar (sep : Char) (s : String) : List String :=
  jsSplitCharAux sep s.toList []

/-- `parseInt(s, 10)`: skip leading whitespace, read an optional sign and the
longest digit prefix; `none` models `NaN` (no digits found). -/
def jsParseInt (s : String) : Option Int :=
  let cs := s.toList.dropWhile jsWhitespaceChar
  let signAndRest : Int × List Char :=
    match cs with
    | '+' :: rest => (1, rest)
    | '-' :: rest => (-1, rest)
    | rest => (1, rest)
  let digits := signAndRest.2.takeWhile Char.isDigit
  if digits.isEmpty then none
  else some (signAndRest.1 * (digits.foldl (fun acc c => acc * 10 + (c.toNat - 48)) 0 : Nat))

/-! ### `atob`: forgiving base64 decoding

`atob` throws `InvalidCharacterError` on invalid input; the model returns
`none` there.  The decoded binary string is read back as its code units
(`c.charCodeAt(0)`), so the model produces the byte list directly. -/

/-- The value of one base64 alphabet character. -/
def base64CharVal (c : Char) : Option Nat :=
  if 'A' ≤ c ∧ c ≤ 'Z' then some (c.toNat - 65)
  else if 'a' ≤ c ∧ c ≤ 'z' then some (c.toNat - 97 + 26)
  else if '0' ≤ c ∧ c ≤ '9' then some (c.toNat - 48 + 52)
  else if c = '+' then some 62
  else if c = '/' then some 63
  else none

/-- Reassemble 6-bit groups into bytes (a trailing lone group yields nothing,
but it is ruled out earlier by the length check). -/
def base64Regroup : List Nat → List Nat
  | v1 :: v2 :: v3 :: v4 :: rest =>
    (v1 * 4 + v2 / 16) :: ((v2 % 16) * 16 + v3 / 4) :: ((v3 % 4) * 64 + v4) ::
      base64Regroup rest
  | [v1, v2, v3] => [v1 * 4 + v2 / 16, (v2 % 16) * 16 + v3 / 4]
  | [v1, v2] => [v1 * 4 + v2 / 16]
  | _ => []

/-- Strip at most two trailing `=` characters. -/
def stripBase64Padding (cs : List Char) : List Char :=
  match cs.reverse with
  | '=' :: '=' :: rest => rest.reverse
  | '=' :: rest => rest.reverse
  | _ => cs

/-- `atob(s)`, following the forgiving-base64 algorithm. -/
def atob (s : String) : Option (List Nat) :=
  let cs := s.toList.filter (fun c => !jsWhitespaceChar c)
  let cs := if cs.length % 4 = 0 then stripBase64Padding cs else cs
  if cs.length % 4 = 1 then none
  else
    match cs.mapM base64CharVal with
    | none => none
    | some vals => some (base64Regroup vals)

/-! ### Credential Verifier (`verifyPassword`, data-write/index.ts lines 5–39,
identical in the data-read function) -/

/-- The constant-time comparison at the end of `verifyPassword`: XOR the byte
pairs, OR the differences together, compare with zero.  The caller has
already checked the lengths match. -/
def constantTimeXorEq (hashBytes storedHashBytes : List Nat) : Bool :=
  (List.zipWith (fun x y => x ^^^ y) hashBytes storedHashBytes).foldl
    (fun diff x => diff ||| x) 0 = 0

/-- `verifyPassword(password, storedHash)`.  `derive pw salt iterations`
stands for the PBKDF2-HMAC-SHA256 derivation of 32 bytes performed by
`crypto.subtle.deriveBits`; `none` models that call throwing (for example on
a non-positive iteration count), which the `try`/`catch` turns into `false`. -/
def verifyPassword (derive : String → List Nat → Int → Option (List Nat))
    (password storedHash : String) : Bool :=
  match jsSplitChar '$' storedHash with
  | [iterationsStr, saltBase64, hashBase64] =>
    match jsParseInt iterationsStr with
    | none => false
    | some iterations =>
      match atob saltBase64 with
      | none => false
      | some salt =>
        match atob hashBase64 with
        | none => false
        | some storedHashBytes =>
          match derive password salt iterations with
          | none => false
          | some hashBytes =>
            if hashBytes.length ≠ storedHashBytes.length then false
            else constantTimeXorEq hashBytes storedHashBytes
  | _ => false

/-! ### Rate Limiter (`checkRateLimit`, data-write/index.ts lines 59–70,
identical in the data-read function) -/

structure RateLimitEntry where
  count : Nat
  resetTime : Int
deriving DecidableEq, Repr

/-- The `rateLimits` map, with JavaScript `Map` insertion-order semantics. -/
abbrev RateLimitMap := List (String × RateLimitEntry)

/-- `Map.set`: replace in place when the key exists, append otherwise. -/
def mapSet (k : String) (v : RateLimitEntry) : RateLimitMap → RateLimitMap
  | [] => [(k, v)]
  | (k', v') :: rest => if k' = k then (k, v) :: rest else (k', v') :: mapSet k v rest

/-- `checkRateLimit(key, maxRequests, windowMs)` at time `now`, returning the
allow decision together with the updated map. -/
def checkRateLimit (now : Int) (key : String) (maxRequests : Nat) (windowMs : Int)
    (m : RateLimitMap) : Bool × RateLimitMap :=
  match List.lookup key m with
  | none => (true, mapSet key ⟨1, now + windowMs⟩ m)
  | some entry =>
    if now > entry.resetTime then (true, mapSet key ⟨1, now + windowMs⟩ m)
    else if entry.count ≥ maxRequests then (false, m)
    else (true, mapSet key ⟨entry.count + 1, entry.resetTime⟩ m)

/-- Run a sequence of `checkRateLimit` calls for one key at the given times,
collecting the allow decisions. -/
def runRateCalls (key : String) (maxRequests : Nat) (windowMs : Int) :
    RateLimitMap → List Int → List Bool × RateLimitMap
  | m, [] => ([], m)
  | m, t :: ts =>
    let r := checkRateLimit t key maxRequests windowMs m
    let rest := runRateCalls key maxRequests windowMs r.2 ts
    (r.1 :: rest.1, rest.2)

/-! ### CORS / Origin Guard (admin-auth/index.ts) -/

/-- The `isAllowed` predicate inside `getCorsHeaders` (admin-auth/index.ts
lines 21–27): the origin contains a trimmed allow-list entry, or exactly
equals it under either scheme. -/
def corsOriginAllowed (origin : String) (allowedDomains : List String) : Bool :=
  allowedDomains.any fun domain =>
    let trimmedDomain := jsTrim domain
    jsIncludes origin trimmedDomain ||
    origin = "http://" ++ trimmedDomain ||
    origin = "https://" ++ trimmedDomain

/-- The `isAllowed` check in the admin-auth request handler (lines 85–88):
empty allow-list, or the origin or referer contains an entry.  The domain
list was already trimmed where it is read from the environment (line 78). -/
def adminServeIsAllowed (origin referer : Option String)
    (allowedDomains : List String) : Bool :=
  allowedDomains.isEmpty ||
  (jsTruthyS origin && allowedDomains.any (fun domain => jsIncludes (origin.getD "") domain)) ||
  (jsTruthyS referer && allowedDomains.any (fun domain => jsIncludes (referer.getD "") domain))

/-! ### Credential records and the three authentication paths -/

/-- A row of the `investor_password` table.  `password_hash` is the PBKDF2
hash column (absent in the original schema, added by the migration script),
`password` the legacy plaintext column. -/
structure CredRecord where
  password_hash : Option String
  password : Option String
  is_artemis_management : Bool
deriving DecidableEq, Repr

/-- `authenticateAdmin` of the data-write function (lines 73–93): walk the
records; a record with a (truthy) hash is checked with `verifyPassword`,
otherwise a truthy plaintext is compared for exact equality; first match
wins. -/
def authenticateAdminWrite (verify : String → String → Bool) (password : String) :
    List CredRecord → Bool
  | [] => false
  | user :: rest =>
    if jsTruthyS user.password_hash then
      if verify password (user.password_hash.getD "") then true
      else authenticateAdminWrite verify password rest
    else if jsTruthyS user.password && user.password = some password then true
    else authenticateAdminWrite verify password rest

/-- `authenticateAdmin` of the data-read function: it selects only the
`password_hash` column and has no plaintext branch. -/
def authenticateAdminRead (verify : String → String → Bool) (password : String) :
    List CredRecord → Bool
  | [] => false
  | user :: rest =>
    if jsTruthyS user.password_hash then
      if verify password (user.password_hash.getD "") then true
      else authenticateAdminRead verify password rest
    else authenticateAdminRead verify password rest

/-- The record-level authentication rule in the words of the specification:
"a record authenticates a request iff verification succeeds against hash OR,
absent a hash, exact match against plaintext". -/
def recordAuthenticatesSpec (verify : String → String → Bool) (password : String)
    (r : CredRecord) : Prop :=
  (∃ h, r.password_hash = some h ∧ verify password h = true) ∨
  (r.password_hash = none ∧ r.password = some password)

/-! ### The admin-auth (Authenticate) request handler -/

structure AdminBody where
  password : Option String
deriving DecidableEq, Repr

/-- An inbound admin-auth request after the OPTIONS pre-flight branch:
origin and referer headers, and the parsed JSON body (`none` when parsing
threw). -/
structure AdminReq where
  origin : Option String
  referer : Option String
  body : Option AdminBody
deriving DecidableEq, Repr

inductive AdminResp
  /-- 429; present in the taxonomy but never produced by this handler. -/
  | rateLimited
  /-- 403 "Domain not allowed". -/
  | domainNotAllowed
  /-- 400 "Invalid request body". -/
  | invalidBody
  /-- 400 "Password is required". -/
  | passwordRequired
  /-- 500 "Database error" (query error, including `maybeSingle` on
  multiple matching rows). -/
  | dbError
  /-- 401 "Invalid password". -/
  | invalidPassword
  /-- 200 with the matched record's management flag. -/
  | authenticated (isArtemisManagement : Bool)
  /-- 500 from the outer catch (missing environment variables, …). -/
  | serverError
deriving DecidableEq, Repr

/-- The admin-auth handler (admin-auth/index.ts lines 77–277) for a
non-OPTIONS request.  `envOk` is the presence of the two environment
variables; `db` is the `investor_password` table, `Except.error` a query
failure.  The password lookup is `.eq("password", password).maybeSingle()`:
no row means 401, exactly one row authenticates, several rows make
`maybeSingle` report an error (500). -/
def adminAuthServe (allowedDomains : List String) (envOk : Bool)
    (db : Except Unit (List CredRecord)) (req : AdminReq) : AdminResp :=
  let isAllowed := adminServeIsAllowed req.origin req.referer allowedDomains
  if !isAllowed && allowedDomains.length > 0 then .domainNotAllowed
  else
    match req.body with
    | none => .invalidBody
    | some body =>
      if !jsTruthyS body.password then .passwordRequired
      else if !envOk then .serverError
      else
        match db with
        | .error _ => .dbError
        | .ok records =>
          match records.filter (fun r => r.password = some (body.password.getD "")) with
          | [] => .invalidPassword
          | [r] => .authenticated r.is_artemis_management
          | _ => .dbError

/-- Process a sequence of admin-auth requests.  The handler keeps no state
between requests (in particular, no rate-limit map), so this is a plain map. -/
def runAdminRequests (allowedDomains : List String) (envOk : Bool)
    (db : Except Unit (List CredRecord)) (reqs : List AdminReq) : List AdminResp :=
  reqs.map (adminAuthServe allowedDomains envOk db)

/-! ### Request Router — data-write (data-write/index.ts lines 95–364)

Payload values are opaque (`α`); a `data` object is an association list and
`data[field] !== undefined` is a successful `List.lookup`. -/

/-- The table whitelist of the write endpoint (lines 170–177): the six
domain tables. -/
def writeAllowedTables : List String :=
  ["cash_position", "monthly_burn", "customer", "employee_count",
   "pipeline_client", "quarter_goal"]

/-- The table whitelist of the read endpoint (data-read, lines 513–521 of
its source): the six domain tables plus `pipeline_note`. -/
def readAllowedTables : List String :=
  ["cash_position", "monthly_burn", "customer", "employee_count",
   "pipeline_client", "quarter_goal", "pipeline_note"]

/-- The per-table field whitelist (lines 190–197), with `allowedFields[table]
|| []` for an unknown table. -/
def allowedFieldsFor (table : String) : List String :=
  if table = "cash_position" then ["id", "amount", "date", "notes"]
  else if table = "monthly_burn" then ["id", "amount", "month", "notes"]
  else if table = "customer" then
    ["id", "name", "is_pilot", "contract_value", "arr", "start_date", "status"]
  else if table = "employee_count" then ["id", "count", "date", "is_full_time"]
  else if table = "pipeline_client" then
    ["id", "name", "segment", "stage", "estimated_contract_size",
     "engagement_start_date", "status", "notes"]
  else if table = "quarter_goal" then
    ["id", "name", "target_value", "current_value", "quarter", "year",
     "metric_type", "order"]
  else []

/-- The CREATE field filter (lines 215–219): keep, in whitelist order, each
whitelisted field the payload defines. -/
def filterCreateFields {α : Type} (tableFields : List String)
    (data : List (String × α)) : List (String × α) :=
  tableFields.filterMap fun field => (List.lookup field data).map fun v => (field, v)

/-- The UPDATE field filter (lines 274–278): as for create, but `id` is
excluded. -/
def filterUpdateFields {α : Type} (tableFields : List String)
    (data : List (String × α)) : List (String × α) :=
  tableFields.filterMap fun field =>
    if field = "id" then none
    else (List.lookup field data).map fun v => (field, v)

/-- Outcomes of the write handler.  A `insertCall`/`updateCall`/`deleteCall`
constructor is the storage call the handler would dispatch; every other
constructor is an error response and means no storage call is made. -/
inductive WriteResp (α : Type)
  /-- 429 "Too many requests". -/
  | rateLimited
  /-- 401 "Authentication required". -/
  | authRequired
  /-- 401 "Invalid credentials". -/
  | invalidCredentials
  /-- 400 "Invalid operation". -/
  | invalidOperation
  /-- 400 "Invalid table". -/
  | invalidTable
  /-- 400 "Missing data". -/
  | missingData
  /-- 400 "Missing id or data". -/
  | missingIdOrData
  /-- 400 "Missing id". -/
  | missingId
  /-- 400 "No valid fields provided" / "No valid fields to update". -/
  | noValidFields
  /-- `supabase.from(table).insert(whitelistedData)`. -/
  | insertCall (table : String) (data : List (String × α))
  /-- `supabase.from(table).update(whitelistedData).eq("id", id)`. -/
  | updateCall (table : String) (id : String) (data : List (String × α))
  /-- `supabase.from(table).delete().eq("id", id)`. -/
  | deleteCall (table : String) (id : String)
  /-- 500 from the outer catch. -/
  | serverError
  /-- The unreachable fall-through after the three operation branches. -/
  | undefinedResponse
deriving DecidableEq, Repr

/-- The CREATE branch (lines 200–256), up to the storage call. -/
def createBranch {α : Type} (table : String) (data : Option (List (String × α))) :
    WriteResp α :=
  match data with
  | none => .missingData
  | some d =>
    let whitelistedData := filterCreateFields (allowedFieldsFor table) d
    if whitelistedData.isEmpty then .noValidFields
    else .insertCall table whitelistedData

/-- The UPDATE branch (lines 259–315), up to the storage call. -/
def updateBranch {α : Type} (table : String) (id : Option String)
    (data : Option (List (String × α))) : WriteResp α :=
  if !jsTruthyS id || data.isNone then .missingIdOrData
  else
    let whitelistedData := filterUpdateFields (allowedFieldsFor table) (data.getD [])
    if whitelistedData.isEmpty then .noValidFields
    else .updateCall table (id.getD "") whitelistedData

/-- The DELETE branch (lines 318–352). -/
def deleteBranch {α : Type} (table : String) (id : Option String) : WriteResp α :=
  if !jsTruthyS id then .missingId
  else .deleteCall table (id.getD "")

/-- The parsed body of a write request; absent properties are `none`. -/
structure WriteBody (α : Type) where
  operation : Option String
  table : Option String
  id : Option String
  data : Option (List (String × α))

/-- The data-write handler for a non-OPTIONS request.  `st` is the
`rateLimits` map and `now` the current time; `xff`/`xri` are the
`x-forwarded-for` and `x-real-ip` headers, `password` the
`x-admin-password` header; `authOk` abstracts `authenticateAdmin` against
the database; `body` is the parsed JSON body (`none` when parsing threw).
Every branch returns the updated rate-limit map. -/
def writeServe {α : Type} (st : RateLimitMap) (now : Int) (xff xri : Option String)
    (password : Option String) (authOk : String → Bool)
    (body : Option (WriteBody α)) : WriteResp α × RateLimitMap :=
  let ip := jsOrS xff (jsOrS xri "unknown")
  let rl := checkRateLimit now ip 30 (60 * 1000) st
  let resp : WriteResp α :=
    if !rl.1 then .rateLimited
    else if !jsTruthyS password then .authRequired
    else if !authOk (password.getD "") then .invalidCredentials
    else
      match body with
      | none => .serverError
      | some b =>
        if !(match b.operation with
             | some op => ["create", "update", "delete"].contains op
             | none => false) then .invalidOperation
        else if !(jsTruthyS b.table && writeAllowedTables.contains (b.table.getD ""))
          then .invalidTable
        else
          let table := b.table.getD ""
          if b.operation = some "create" then createBranch table b.data
          else if b.operation = some "update" then updateBranch table b.id b.data
          else if b.operation = some "delete" then deleteBranch table b.id
          else .undefinedResponse
  (resp, rl.2)

/-- Thread a sequence of write requests (given as timestamps, all with the
same headers, credential and body) through the handler, collecting the
responses. -/
def runWriteRequests {α : Type} (xff xri : Option String) (password : Option String)
    (authOk : String → Bool) (body : Option (WriteBody α)) :
    RateLimitMap → List Int → List (WriteResp α) × RateLimitMap
  | st, [] => ([], st)
  | st, t :: ts =>
    let r := writeServe st t xff xri password authOk body
    let rest := runWriteRequests xff xri password authOk body r.2 ts
    (r.1 :: rest.1, rest.2)

/-! ### KPI Aggregator (data-read, `getKPIs` branch) -/

structure CashRow where
  amount : Int
  date : Int
deriving DecidableEq, Repr

structure BurnRow where
  amount : Int
  month : Int
deriving DecidableEq, Repr

structure CustomerRow where
  id : String
  name : String
  is_pilot : Bool
  contract_value : Option Int
  arr : Option Int
  start_date : Option Int
  status : Option String
deriving DecidableEq, Repr

structure EmployeeRow where
  count : Int
  date : Int
  is_full_time : Bool
deriving DecidableEq, Repr

/-- A `pipeline_note` row; only the pass-through matters here. -/
structure NoteRow where
  id : String
  order : Int
deriving DecidableEq, Repr

structure RawPipelineClient where
  id : String
  name : String
  segment : String
  stage : Option String
  estimated_contract_size : Option Int
  engagement_start_date : Option Int
  status : Option String
  notes : Option String
deriving DecidableEq, Repr

/-- The output of `formatPipelineClient` (data-read source lines 576–592). -/
structure FormattedClient where
  id : String
  name : String
  segment : String
  stage : String
  estimatedContractSize : Int
  engagementStartDate : Option Int
  status : Option String
  notes : Option String
  daysSinceEngagement : Int
deriving DecidableEq, Repr

/-- The formatted view of a customer row in the KPI response (lines
636–644). -/
structure FormattedCustomer where
  id : String
  name : String
  is_pilot : Bool
  contract_value : Int
  arr : Int
  start_date : Option Int
  status : Option String
deriving DecidableEq, Repr

/-- `cashPositions?.[0]?.amount || 0`. -/
def reportedCashPosition (rows : List CashRow) : Int :=
  match rows.head? with
  | some r => r.amount
  | none => 0

/-- `cashPositions?.[0]?.date || null`. -/
def reportedCashPositionDate (rows : List CashRow) : Option Int :=
  rows.head?.map (·.date)

/-- `monthlyBurns?.[0]?.amount || 0`. -/
def reportedMonthlyBurn (rows : List BurnRow) : Int :=
  match rows.head? with
  | some r => r.amount
  | none => 0

/-- `monthlyBurns?.[0]?.month || null`. -/
def reportedMonthlyBurnMonth (rows : List BurnRow) : Option Int :=
  rows.head?.map (·.month)

/-- Stable descending insertion by an integer key, modelling
`.sort((a, b) => new Date(b.date).getTime() - new Date(a.date).getTime())`. -/
def insertByKeyDesc {α : Type} (key : α → Int) (x : α) : List α → List α
  | [] => [x]
  | y :: ys => if key x > key y then x :: y :: ys else y :: insertByKeyDesc key x ys

/-- Stable descending sort by an integer key. -/
def sortByKeyDesc {α : Type} (key : α → Int) (l : List α) : List α :=
  l.foldr (insertByKeyDesc key) []

/-- `formatPipelineClient` (lines 576–592).  `stage` defaults to
`initial_meeting` and `estimatedContractSize` to `0` when falsy;
`daysSinceEngagement` is `Math.floor((now − start) / 86400000)` when an
engagement start date is present, else `0`. -/
def formatPipelineClient (now : Int) (p : RawPipelineClient) : FormattedClient where
  id := p.id
  name := p.name
  segment := p.segment
  stage := jsOrS p.stage "initial_meeting"
  estimatedContractSize := p.estimated_contract_size.getD 0
  engagementStartDate := p.engagement_start_date
  status := p.status
  notes := p.notes
  daysSinceEngagement :=
    match p.engagement_start_date with
    | some d => Int.fdiv (now - d) (1000 * 60 * 60 * 24)
    | none => 0

/-- The fixed segment list of the pipeline matrix (line 599). -/
def pipelineSegments : List String := ["smb", "mid_market", "large_cap"]

/-- The fixed stage list of the pipeline matrix (lines 600–605). -/
def pipelineStages : List String :=
  ["initial_meeting", "pilot_scoping", "pilot", "contracting"]

structure MatrixCell where
  count : Nat
  clients : List FormattedClient
  totalValue : Int
deriving DecidableEq, Repr

/-- One cell of the pipeline matrix (lines 611–621): the clients whose
segment and stage match, their number, and the sum of their estimated
contract sizes. -/
def matrixCell (formattedClients : List FormattedClient) (segment stage : String) :
    MatrixCell :=
  let clients := formattedClients.filter fun p => p.segment = segment && p.stage = stage
  { count := clients.length
    clients := clients
    totalValue := clients.foldl (fun sum c => sum + c.estimatedContractSize) 0 }

/-- The pipeline matrix (lines 607–623), keyed first by segment then by
stage. -/
def pipelineMatrix (formattedClients : List FormattedClient) :
    List (String × List (String × MatrixCell)) :=
  pipelineSegments.map fun segment =>
    (segment, pipelineStages.map fun stage =>
      (stage, matrixCell formattedClients segment stage))

/-- Look a cell up in the matrix. -/
def matrixLookup (m : List (String × List (String × MatrixCell)))
    (segment stage : String) : Option MatrixCell :=
  (List.lookup segment m).bind (List.lookup stage)

/-- The row sets handed to the aggregator by the storage gateway.  The cash
and burn queries are issued with `order(… , descending).limit(1)`, the
employee query ordered by date descending, the note query by `order`
ascending; the aggregator receives whatever lists come back. -/
structure ReadDb where
  cashRows : List CashRow
  burnRows : List BurnRow
  customerRows : List CustomerRow
  employeeRows : List EmployeeRow
  pipelineRows : List RawPipelineClient
  noteRows : List NoteRow
deriving DecidableEq, Repr

structure KPISnapshot where
  cashPosition : Int
  cashPositionDate : Option Int
  monthlyBurn : Int
  monthlyBurnMonth : Option Int
  customerCount : Nat
  totalARR : Int
  totalContractValue : Int
  fullTimeEmployeeCount : Int
  contractorCount : Int
  customers : List FormattedCustomer
  pipelineClients : List FormattedClient
  pipelineMatrix : List (String × List (String × MatrixCell))
  pipelineNotes : List NoteRow
deriving DecidableEq, Repr

/-- The `getKPIs` aggregation (data-read source lines 524–654) as a function
of the fetched row sets. -/
def buildKPIs (now : Int) (db : ReadDb) : KPISnapshot where
  cashPosition := reportedCashPosition db.cashRows
  cashPositionDate := reportedCashPositionDate db.cashRows
  monthlyBurn := reportedMonthlyBurn db.burnRows
  monthlyBurnMonth := reportedMonthlyBurnMonth db.burnRows
  customerCount := db.customerRows.length
  totalARR := db.customerRows.foldl (fun sum c => sum + c.arr.getD 0) 0
  totalContractValue := db.customerRows.foldl (fun sum c => sum + c.contract_value.getD 0) 0
  fullTimeEmployeeCount :=
    match (sortByKeyDesc (·.date) (db.employeeRows.filter (·.is_full_time))).head? with
    | some e => e.count
    | none => 0
  contractorCount :=
    match (sortByKeyDesc (·.date) (db.employeeRows.filter (!·.is_full_time))).head? with
    | some e => e.count
    | none => 0
  customers := db.customerRows.map fun c =>
    { id := c.id, name := c.name, is_pilot := c.is_pilot
      contract_value := c.contract_value.getD 0, arr := c.arr.getD 0
      start_date := c.start_date, status := c.status }
  pipelineClients := db.pipelineRows.map (formatPipelineClient now)
  pipelineMatrix := pipelineMatrix (db.pipelineRows.map (formatPipelineClient now))
  pipelineNotes := db.noteRows

/-! ### Request Router — data-read -/

structure ReadBody where
  operation : Option String
  table : Option String
  id : Option String
  filters : Option (List (String × String))
deriving DecidableEq, Repr

inductive ReadResp
  /-- 429 "Too many requests". -/
  | rateLimited
  /-- 401 "Authentication required". -/
  | authRequired
  /-- 401 "Invalid credentials". -/
  | invalidCredentials
  /-- 400 "Invalid operation". -/
  | invalidOperation
  /-- 400 "Invalid table" (list branch). -/
  | invalidTable
  /-- 400 "Invalid table or missing id" (get branch). -/
  | invalidTableOrId
  /-- 200: the KPI snapshot. -/
  | kpis (snapshot : KPISnapshot)
  /-- 200: the list query dispatched to storage. -/
  | listCall (table : String) (filters : List (String × String))
  /-- 200: the single-record query dispatched to storage. -/
  | getCall (table : String) (id : String)
  /-- 400 "Invalid request" (unreachable fall-through). -/
  | invalidRequest
  /-- 500 from the outer catch. -/
  | serverError
deriving DecidableEq, Repr

/-- The data-read handler for a non-OPTIONS request (README source lines
444–753).  Parameters as for `writeServe`; the read budget is 60 requests
per minute.  `db` provides the rows for the `getKPIs` branch. -/
def readServe (st : RateLimitMap) (now : Int) (xff xri : Option String)
    (password : Option String) (authOk : String → Bool)
    (body : Option ReadBody) (db : ReadDb) : ReadResp × RateLimitMap :=
  let ip := jsOrS xff (jsOrS xri "unknown")
  let rl := checkRateLimit now ip 60 (60 * 1000) st
  let resp : ReadResp :=
    if !rl.1 then .rateLimited
    else if !jsTruthyS password then .authRequired
    else if !authOk (password.getD "") then .invalidCredentials
    else
      match body with
      | none => .serverError
      | some b =>
        if !(match b.operation with
             | some op => ["getKPIs", "list", "get"].contains op
             | none => false) then .invalidOperation
        else if b.operation = some "getKPIs" then .kpis (buildKPIs now db)
        else if b.operation = some "list" then
          if !(jsTruthyS b.table && readAllowedTables.contains (b.table.getD ""))
            then .invalidTable
          else .listCall (b.table.getD "") (b.filters.getD [])
        else if b.operation = some "get" then
          if !(jsTruthyS b.table && readAllowedTables.contains (b.table.getD "")
                && jsTruthyS b.id) then .invalidTableOrId
          else .getCall (b.table.getD "") (b.id.getD "")
        else .invalidRequest
  (resp, rl.2)

/-- Thread a sequence of read requests through the handler. -/
def runReadRequests (xff xri : Option String) (password : Option String)
    (authOk : String → Bool) (body : Option ReadBody) (db : ReadDb) :
    RateLimitMap → List Int → List ReadResp × RateLimitMap
  | st, [] => ([], st)
  | st, t :: ts =>
    let r := readServe st t xff xri password authOk body db
    let rest := runReadRequests xff xri password authOk body db r.2 ts
    (r.1 :: rest.1, rest.2)

/-- Descending sortedness by an integer key, as a computation. -/
def sortedByKeyDesc {α : Type} (key : α → Int) : List α → Bool
  | [] => true
  | [_] => true
  | a :: b :: rest => key b ≤ key a && sortedByKeyDesc key (b :: rest)

/-! ## Helper lemmas -/

theorem listPrefixOf_self (l : List Char) : listPrefixOf l l = true := by
  induction l with
  | nil => rfl
  | cons c rest ih => simp [listPrefixOf, ih]

theorem listSubstr_append_self (s t : List Char) : listSubstr t (s ++ t) = true := by
  induction s with
  | nil =>
    cases t with
    | nil => rfl
    | cons c rest => simp [listSubstr, listPrefixOf_self]
  | cons a s ih => simp [listSubstr, ih]

/-- A string contains every suffix obtained by dropping a prefix. -/
theorem jsIncludes_append_self (s t : String) : jsIncludes (s ++ t) t = true := by
  have h : (s ++ t).toList = s.toList ++ t.toList := by
    simp [String.toList, String.data_append]
  simp [jsIncludes, h, listSubstr_append_self]

/-! ## C5 — the credential verifier rejects every malformed stored hash -/

/-- **C5.** `verifyPassword` returns `false`, for every password and every
derivation outcome, whenever the stored hash is malformed: the string does
not split into exactly 3 dollar-separated parts, the iteration count part
does not parse as an integer, or base64-decoding the salt or the hash part
fails. -/
theorem verifyPasswordMalformed (derive : String → List Nat → Int → Option (List Nat))
    (password storedHash : String)
    (hm : (jsSplitChar '$' storedHash).length ≠ 3 ∨
      ∃ iterationsStr saltBase64 hashBase64,
        jsSplitChar '$' storedHash = [iterationsStr, saltBase64, hashBase64] ∧
        (jsParseInt iterationsStr = none ∨ atob saltBase64 = none ∨ atob hashBase64 = none)) :
    verifyPassword derive password storedHash = false := by
  unfold verifyPassword
  rcases hm with hm | ⟨a, b, c, heq, hm⟩
  · rcases hsp : jsSplitChar '$' storedHash with _ | ⟨x, _ | ⟨y, _ | ⟨z, _ | ⟨w, tl⟩⟩⟩⟩
    · rfl
    · rfl
    · rfl
    · exact absurd (by rw [hsp] ; rfl) hm
    · rfl
  · rw [heq]
    rcases hm with hp | hs | hh
    · simp [hp]
    · cases hi : jsParseInt a
      · simp [hi]
      · simp [hi, hs]
    · cases hi : jsParseInt a
      · simp [hi]
      · cases hsalt : atob b
        · simp [hi, hsalt]
        · simp [hi, hsalt, hh]

/-- Witness for C5: one concrete malformed hash of each kind is rejected,
whatever bytes the derivation would produce. -/
theorem verifyPasswordMalformed_witness :
    verifyPassword (fun _ _ _ => some (List.replicate 32 0)) "pw" "no-dollar-parts" = false ∧
    verifyPassword (fun _ _ _ => some (List.replicate 32 0)) "pw" "iter$QUJD$QUJD" = false ∧
    verifyPassword (fun _ _ _ => some (List.replicate 32 0)) "pw" "1000$!bad!$QUJD" = false ∧
    verifyPassword (fun _ _ _ => some (List.replicate 32 0)) "pw" "1000$QUJD$!bad!" = false :=
  ⟨verifyPasswordMalformed _ "pw" "no-dollar-parts" (Or.inl (by decide)),
   verifyPasswordMalformed _ "pw" "iter$QUJD$QUJD"
     (Or.inr ⟨"iter", "QUJD", "QUJD", by decide, Or.inl (by decide)⟩),
   verifyPasswordMalformed _ "pw" "1000$!bad!$QUJD"
     (Or.inr ⟨"1000", "!bad!", "QUJD", by decide, Or.inr (Or.inl (by decide))⟩),
   verifyPasswordMalformed _ "pw" "1000$QUJD$!bad!"
     (Or.inr ⟨"1000", "QUJD", "!bad!", by decide, Or.inr (Or.inr (by decide))⟩)⟩

/-! ## C6 — the rate limiter's window/count behaviour -/

/-- **C6.** `checkRateLimit` creates or resets the entry to
`{count := 1, resetTime := now + windowMs}` and allows when no entry exists
or `now` strictly exceeds the stored reset time; otherwise it increments and
allows while `count < maxRequests` and rejects without change once the count
has reached the budget.  Consequently, with `maxRequests = 3` and
`windowMs = 1000`, four calls in one window give allow, allow, allow,
reject, and a fifth call after the window elapses is allowed again. -/
theorem checkRateLimitSpec :
    (∀ (now : Int) (key : String) (maxRequests : Nat) (windowMs : Int) (m : RateLimitMap),
      List.lookup key m = none →
      checkRateLimit now key maxRequests windowMs m =
        (true, mapSet key ⟨1, now + windowMs⟩ m)) ∧
    (∀ now key maxRequests windowMs m entry,
      List.lookup key m = some entry → now > entry.resetTime →
      checkRateLimit now key maxRequests windowMs m =
        (true, mapSet key ⟨1, now + windowMs⟩ m)) ∧
    (∀ now key maxRequests windowMs m entry,
      List.lookup key m = some entry → ¬ now > entry.resetTime →
      entry.count < maxRequests →
      checkRateLimit now key maxRequests windowMs m =
        (true, mapSet key ⟨entry.count + 1, entry.resetTime⟩ m)) ∧
    (∀ now key maxRequests windowMs m entry,
      List.lookup key m = some entry → ¬ now > entry.resetTime →
      ¬ entry.count < maxRequests →
      checkRateLimit now key maxRequests windowMs m = (false, m)) ∧
    (runRateCalls "k" 3 1000 [] [0, 1, 2, 3, 1001]).1 =
      [true, true, true, false, true] := by
  refine ⟨?_, ?_, ?_, ?_, by decide⟩
  · intro now key maxRequests windowMs m h
    simp [checkRateLimit, h]
  · intro now key maxRequests windowMs m entry h hgt
    simp [checkRateLimit, h, hgt]
  · intro now key maxRequests windowMs m entry h hle hlt
    simp [checkRateLimit, h, hle, Nat.not_le.mpr hlt]
  · intro now key maxRequests windowMs m entry h hle hge
    simp [checkRateLimit, h, hle, Nat.le_of_not_lt hge]

/-- Witness for C6: a fresh key is granted its first call and gets a window
ending at `now + windowMs`. -/
theorem checkRateLimitSpec_witness :
    checkRateLimit 5 "alice" 3 1000 [] = (true, mapSet "alice" ⟨1, 1005⟩ []) :=
  checkRateLimitSpec.1 5 "alice" 3 1000 [] (by decide)

/-! ## C7 — origin allow-listing -/

/-- **C7.** With an empty allow-list every origin is permitted.  With a
non-empty allow-list, the origin check of `getCorsHeaders` accepts an origin
iff it contains a trimmed allow-list entry as a substring or exactly equals
one prefixed with `http://` or `https://`; the handler-level check (which
receives the entries already trimmed) agrees with that same condition for a
request carrying a non-empty origin and no referer.  In particular, with
allow-list `["example.com"]`, the origins `https://example.com` and
`https://sub.example.com` are permitted and `https://evil.com` is
rejected. -/
theorem corsOriginGuardSpec :
    (∀ origin referer, adminServeIsAllowed origin referer [] = true) ∧
    (∀ origin allowList, corsOriginAllowed origin allowList = true ↔
      ∃ e ∈ allowList, jsIncludes origin (jsTrim e) = true ∨
        origin = "http://" ++ jsTrim e ∨ origin = "https://" ++ jsTrim e) ∧
    (∀ origin allowList, origin ≠ "" → allowList ≠ [] →
      (adminServeIsAllowed (some origin) none (allowList.map jsTrim) = true ↔
        ∃ e ∈ allowList, jsIncludes origin (jsTrim e) = true ∨
          origin = "http://" ++ jsTrim e ∨ origin = "https://" ++ jsTrim e)) ∧
    (adminServeIsAllowed (some "https://example.com") none ["example.com"] = true ∧
     adminServeIsAllowed (some "https://sub.example.com") none ["example.com"] = true ∧
     adminServeIsAllowed (some "https://evil.com") none ["example.com"] = false ∧
     corsOriginAllowed "https://example.com" ["example.com"] = true ∧
     corsOriginAllowed "https://sub.example.com" ["example.com"] = true ∧
     corsOriginAllowed "https://evil.com" ["example.com"] = false) := by
  refine ⟨?_, ?_, ?_, by decide⟩
  · intro origin referer
    simp [adminServeIsAllowed]
  · intro origin allowList
    simp [corsOriginAllowed, List.any_eq_true, or_assoc]
  · intro origin allowList horigin hne
    have hempty : (allowList.map jsTrim).isEmpty = false := by
      cases allowList with
      | nil => exact absurd rfl hne
      | cons a l => simp
    have h1 : adminServeIsAllowed (some origin) none (allowList.map jsTrim) =
        (allowList.map jsTrim).any (fun d => jsIncludes origin d) := by
      unfold adminServeIsAllowed
      rw [hempty]
      simp [jsTruthyS, horigin]
    rw [h1]
    simp only [List.any_map, List.any_eq_true, Function.comp]
    constructor
    · rintro ⟨e, he, hinc⟩
      exact ⟨e, he, Or.inl hinc⟩
    · rintro ⟨e, he, hinc | heq | heq⟩
      · exact ⟨e, he, hinc⟩
      · exact ⟨e, he, heq ▸ jsIncludes_append_self "http://" (jsTrim e)⟩
      · exact ⟨e, he, heq ▸ jsIncludes_append_self "https://" (jsTrim e)⟩

/-- Witness for C7: the handler-level check on allow-list `["example.com"]`
admits `https://example.com`, obtained through the containment/equality
characterisation. -/
theorem corsOriginGuardSpec_witness :
    adminServeIsAllowed (some "https://example.com") none
      (["example.com"].map jsTrim) = true :=
  (corsOriginGuardSpec.2.2.1 "https://example.com" ["example.com"]
    (by decide) (by decide)).mpr
    ⟨"example.com", by decide, Or.inl (by decide)⟩

/-! ## C1 / C10 — field whitelisting on writes -/

theorem mem_filterCreateFields {α : Type} {fields : List String}
    {d : List (String × α)} {p : String × α}
    (h : p ∈ filterCreateFields fields d) :
    p.1 ∈ fields ∧ List.lookup p.1 d = some p.2 := by
  unfold filterCreateFields at h
  rcases List.mem_filterMap.mp h with ⟨field, hf, heq⟩
  rcases Option.map_eq_some'.mp heq with ⟨v, hv, hpv⟩
  cases hpv
  exact ⟨hf, hv⟩

theorem mem_filterUpdateFields {α : Type} {fields : List String}
    {d : List (String × α)} {p : String × α}
    (h : p ∈ filterUpdateFields fields d) :
    p.1 ∈ fields ∧ p.1 ≠ "id" ∧ List.lookup p.1 d = some p.2 := by
  unfold filterUpdateFields at h
  rcases List.mem_filterMap.mp h with ⟨field, hf, heq⟩
  by_cases hid : field = "id"
  · simp [hid] at heq
  · rw [if_neg hid] at heq
    rcases Option.map_eq_some'.mp heq with ⟨v, hv, hpv⟩
    cases hpv
    exact ⟨hf, hid, hv⟩

theorem lookup_filterUpdateFields_id {α : Type} (fields : List String)
    (d : List (String × α)) :
    List.lookup "id" (filterUpdateFields fields d) = none := by
  induction fields with
  | nil => rfl
  | cons f fs ih =>
    unfold filterUpdateFields at ih ⊢
    rw [List.filterMap_cons]
    by_cases hid : f = "id"
    · simp [hid, ih]
    · rw [if_neg hid]
      cases hl : List.lookup f d with
      | none => simpa using ih
      | some v =>
        simp only [Option.map_some']
        rw [List.lookup_cons]
        simp only [show (("id" : String) == f) = false by
          simp [BEq.beq] ; exact fun h => hid h.symm]
        exact ih

/-- **C1.** For a write on a whitelisted table: every field forwarded by the
create branch is in the table's whitelist; every field forwarded by the
update branch is in the whitelist and is not `id`; and when the filter
leaves zero fields, both branches answer `NoValidFields` instead of a
storage call. -/
theorem writeFieldWhitelist {α : Type} (table : String)
    (_htable : table ∈ writeAllowedTables) (d : List (String × α)) :
    (∀ fwd, createBranch table (some d) = WriteResp.insertCall table fwd →
      ∀ p ∈ fwd, p.1 ∈ allowedFieldsFor table) ∧
    (filterCreateFields (allowedFieldsFor table) d = [] →
      createBranch table (some d) = WriteResp.noValidFields) ∧
    (∀ id fwd i, updateBranch table id (some d) = WriteResp.updateCall table i fwd →
      ∀ p ∈ fwd, p.1 ∈ allowedFieldsFor table ∧ p.1 ≠ "id") ∧
    (∀ id, jsTruthyS id = true →
      filterUpdateFields (allowedFieldsFor table) d = [] →
      updateBranch table id (some d) = WriteResp.noValidFields) := by
  have hredC : createBranch table (some d) =
      if (filterCreateFields (allowedFieldsFor table) d).isEmpty then
        WriteResp.noValidFields
      else WriteResp.insertCall table (filterCreateFields (allowedFieldsFor table) d) :=
    rfl
  have hredU : ∀ id : Option String, updateBranch table id (some d) =
      if !jsTruthyS id || (some d : Option (List (String × α))).isNone then
        WriteResp.missingIdOrData
      else if (filterUpdateFields (allowedFieldsFor table) d).isEmpty then
        WriteResp.noValidFields
      else WriteResp.updateCall table (id.getD "")
        (filterUpdateFields (allowedFieldsFor table) d) :=
    fun _ => rfl
  refine ⟨?_, ?_, ?_, ?_⟩
  · intro fwd hc p hp
    rw [hredC] at hc
    by_cases he : (filterCreateFields (allowedFieldsFor table) d).isEmpty
    · rw [if_pos he] at hc
      exact absurd hc (by simp)
    · rw [if_neg he] at hc
      cases hc
      exact (mem_filterCreateFields hp).1
  · intro he
    rw [hredC, if_pos (by simp [he])]
  · intro id fwd i hu p hp
    rw [hredU] at hu
    by_cases ht : !jsTruthyS id || (some d : Option (List (String × α))).isNone
    · rw [if_pos ht] at hu
      exact absurd hu (by simp)
    · rw [if_neg ht] at hu
      by_cases he : (filterUpdateFields (allowedFieldsFor table) d).isEmpty
      · rw [if_pos he] at hu
        exact absurd hu (by simp)
      · rw [if_neg he] at hu
        cases hu
        have hmem := mem_filterUpdateFields hp
        exact ⟨hmem.1, hmem.2.1⟩
  · intro id hid he
    rw [hredU, if_neg (by simp [hid]), if_pos (by simp [he])]

/-- Witness for C1: on table `customer`, the payload
`{name: "Acme", arr: "100", hacked_field: "x"}` is filtered to
`{name, arr}`, whose keys the theorem places in the whitelist; a payload of
only unknown fields produces `NoValidFields`. -/
theorem writeFieldWhitelist_witness :
    (∀ p ∈ [("name", "Acme"), ("arr", "100")], p.1 ∈ allowedFieldsFor "customer") ∧
    createBranch "customer" (some [("hacked_field", "x")]) =
      WriteResp.noValidFields := by
  constructor
  · exact (writeFieldWhitelist "customer" (by decide)
      [("name", "Acme"), ("arr", "100"), ("hacked_field", "x")]).1
      [("name", "Acme"), ("arr", "100")] (by decide)
  · exact (writeFieldWhitelist "customer" (by decide) [("hacked_field", "x")]).2.1
      (by decide)

theorem filterCreateFields_id_cons {α : Type} (rest : List String)
    (d : List (String × α)) (v : α) (hv : List.lookup "id" d = some v) :
    filterCreateFields ("id" :: rest) d = ("id", v) :: filterCreateFields rest d := by
  unfold filterCreateFields
  rw [List.filterMap_cons, hv]
  rfl

/-- **C10.** For every whitelisted table, `id` is in the field whitelist; a
create payload supplying `id` has it forwarded to storage with the supplied
value; an update never forwards `id`. -/
theorem createForwardsId {α : Type} (table : String)
    (htable : table ∈ writeAllowedTables) (d : List (String × α)) (v : α)
    (hv : List.lookup "id" d = some v) :
    "id" ∈ allowedFieldsFor table ∧
    (∃ fwd, createBranch table (some d) = WriteResp.insertCall table fwd ∧
      List.lookup "id" fwd = some v) ∧
    (∀ id i fwd, updateBranch table id (some d) = WriteResp.updateCall table i fwd →
      List.lookup "id" fwd = none) := by
  have hredU : ∀ id : Option String, updateBranch table id (some d) =
      if !jsTruthyS id || (some d : Option (List (String × α))).isNone then
        WriteResp.missingIdOrData
      else if (filterUpdateFields (allowedFieldsFor table) d).isEmpty then
        WriteResp.noValidFields
      else WriteResp.updateCall table (id.getD "")
        (filterUpdateFields (allowedFieldsFor table) d) :=
    fun _ => rfl
  have hupdate : ∀ id i fwd,
      updateBranch table id (some d) = WriteResp.updateCall table i fwd →
      List.lookup "id" fwd = none := by
    intro id i fwd hu
    rw [hredU] at hu
    by_cases ht : !jsTruthyS id || (some d : Option (List (String × α))).isNone
    · rw [if_pos ht] at hu
      exact absurd hu (by simp)
    · rw [if_neg ht] at hu
      by_cases he : (filterUpdateFields (allowedFieldsFor table) d).isEmpty
      · rw [if_pos he] at hu
        exact absurd hu (by simp)
      · rw [if_neg he] at hu
        cases hu
        exact lookup_filterUpdateFields_id _ _
  have hcreate : ∀ rest : List String, allowedFieldsFor table = "id" :: rest →
      ∃ fwd, createBranch table (some d) = WriteResp.insertCall table fwd ∧
        List.lookup "id" fwd = some v := by
    intro rest hfields
    refine ⟨("id", v) :: filterCreateFields rest d, ?_, by simp [List.lookup]⟩
    have hredC : createBranch table (some d) =
        if (filterCreateFields (allowedFieldsFor table) d).isEmpty then
          WriteResp.noValidFields
        else WriteResp.insertCall table (filterCreateFields (allowedFieldsFor table) d) :=
      rfl
    rw [hredC]
    rw [hfields, filterCreateFields_id_cons rest d v hv]
    rfl
  simp only [writeAllowedTables, List.mem_cons, List.not_mem_nil, or_false] at htable
  rcases htable with rfl | rfl | rfl | rfl | rfl | rfl <;>
    exact ⟨by decide, hcreate _ rfl, hupdate⟩

/-- Witness for C10: creating a `cash_position` row with a caller-supplied
`id` forwards that `id`, and an update of the same payload would not. -/
theorem createForwardsId_witness :
    "id" ∈ allowedFieldsFor "cash_position" ∧
    (∃ fwd, createBranch "cash_position" (some [("id", "row-7"), ("amount", "5")]) =
        WriteResp.insertCall "cash_position" fwd ∧ List.lookup "id" fwd = some "row-7") :=
  ⟨(createForwardsId "cash_position" (by decide) [("id", "row-7"), ("amount", "5")]
      "row-7" (by decide)).1,
   (createForwardsId "cash_position" (by decide) [("id", "row-7"), ("amount", "5")]
      "row-7" (by decide)).2.1⟩

/-! ## C2 — the three authentication paths -/

theorem authenticateAdminWrite_iff (verify : String → String → Bool)
    (password : String) (records : List CredRecord) :
    authenticateAdminWrite verify password records = true ↔
      ∃ r ∈ records,
        (jsTruthyS r.password_hash = true ∧
          verify password (r.password_hash.getD "") = true) ∨
        (jsTruthyS r.password_hash = false ∧ jsTruthyS r.password = true ∧
          r.password = some password) := by
  induction records with
  | nil => simp [authenticateAdminWrite]
  | cons user rest ih =>
    constructor
    · intro hw
      unfold authenticateAdminWrite at hw
      by_cases hh : jsTruthyS user.password_hash = true
      · rw [if_pos hh] at hw
        by_cases hv : verify password (user.password_hash.getD "") = true
        · exact ⟨user, by simp, Or.inl ⟨hh, hv⟩⟩
        · rw [if_neg hv] at hw
          rcases ih.mp hw with ⟨r, hr, h⟩
          exact ⟨r, by simp [hr], h⟩
      · rw [if_neg hh] at hw
        by_cases hp : (jsTruthyS user.password && user.password = some password) = true
        · simp only [Bool.and_eq_true, decide_eq_true_eq] at hp
          refine ⟨user, by simp, Or.inr ⟨?_, hp.1, hp.2⟩⟩
          simpa using hh
        · rw [if_neg hp] at hw
          rcases ih.mp hw with ⟨r, hr, h⟩
          exact ⟨r, by simp [hr], h⟩
    · rintro ⟨r, hr, h⟩
      unfold authenticateAdminWrite
      rcases List.mem_cons.mp hr with heq | hmem
      · subst heq
        by_cases hh : jsTruthyS r.password_hash = true
        · rw [if_pos hh]
          rcases h with ⟨_, hv⟩ | ⟨hno, _⟩
          · rw [if_pos hv]
          · rw [hh] at hno
            exact absurd hno (by simp)
        · rw [if_neg hh]
          rcases h with ⟨hyes, _⟩ | ⟨_, htr, heq2⟩
          · exact absurd hyes hh
          · rw [heq2] at htr
            rw [if_pos (by rw [heq2] ; simp [htr])]
      · by_cases hh : jsTruthyS user.password_hash = true
        · rw [if_pos hh]
          by_cases hv : verify password (user.password_hash.getD "") = true
          · rw [if_pos hv]
          · rw [if_neg hv]
            exact ih.mpr ⟨r, hmem, h⟩
        · rw [if_neg hh]
          by_cases hp : (jsTruthyS user.password && user.password = some password) = true
          · rw [if_pos hp]
          · rw [if_neg hp]
            exact ih.mpr ⟨r, hmem, h⟩

theorem authenticateAdminRead_iff (verify : String → String → Bool)
    (password : String) (records : List CredRecord) :
    authenticateAdminRead verify password records = true ↔
      ∃ r ∈ records, jsTruthyS r.password_hash = true ∧
        verify password (r.password_hash.getD "") = true := by
  induction records with
  | nil => simp [authenticateAdminRead]
  | cons user rest ih =>
    constructor
    · intro hw
      unfold authenticateAdminRead at hw
      by_cases hh : jsTruthyS user.password_hash = true
      · rw [if_pos hh] at hw
        by_cases hv : verify password (user.password_hash.getD "") = true
        · exact ⟨user, by simp, hh, hv⟩
        · rw [if_neg hv] at hw
          rcases ih.mp hw with ⟨r, hr, h⟩
          exact ⟨r, by simp [hr], h⟩
      · rw [if_neg hh] at hw
        rcases ih.mp hw with ⟨r, hr, h⟩
        exact ⟨r, by simp [hr], h⟩
    · rintro ⟨r, hr, h⟩
      unfold authenticateAdminRead
      rcases List.mem_cons.mp hr with heq | hmem
      · subst heq
        rw [if_pos h.1, if_pos h.2]
      · by_cases hh : jsTruthyS user.password_hash = true
        · rw [if_pos hh]
          by_cases hv : verify password (user.password_hash.getD "") = true
          · rw [if_pos hv]
          · rw [if_neg hv]
            exact ih.mpr ⟨r, hmem, h⟩
        · rw [if_neg hh]
          exact ih.mpr ⟨r, hmem, h⟩

/-- Counterexample to **C2**: a record with no hash and plaintext `"p"`
satisfies the specification's record-level rule for password `"p"`, yet the
read endpoint's `authenticateAdmin` — which consults only `password_hash` —
rejects it.  (`verify` is irrelevant on this path; any function exhibits the
failure.) -/
theorem authUniformity_counterexample :
    ¬ (authenticateAdminRead (fun _ _ => false) "p"
          [{ password_hash := none, password := some "p", is_artemis_management := false }] = true ↔
        ∃ r ∈ [({ password_hash := none, password := some "p",
                  is_artemis_management := false } : CredRecord)],
          recordAuthenticatesSpec (fun _ _ => false) "p" r) := by
  intro h
  have hfalse := h.mpr
    ⟨{ password_hash := none, password := some "p", is_artemis_management := false },
     by simp, Or.inr ⟨rfl, rfl⟩⟩
  simp [authenticateAdminRead, jsTruthyS] at hfalse

/-- **C2 (amended).** The hash-first, plaintext-fallback rule holds on the
write endpoint: it authenticates iff some record has a non-empty hash that
verifies, or has no (non-empty) hash and a non-empty plaintext equal to the
password.  The read endpoint authenticates only through hash verification
(records without a hash never authenticate there), and the Authenticate
endpoint only through exact plaintext equality of precisely one record
(hashes are never consulted there). -/
theorem authenticationPaths (verify : String → String → Bool) (password : String)
    (records : List CredRecord) (hpw : password ≠ "") :
    (authenticateAdminWrite verify password records = true ↔
      ∃ r ∈ records,
        (jsTruthyS r.password_hash = true ∧
          verify password (r.password_hash.getD "") = true) ∨
        (jsTruthyS r.password_hash = false ∧ jsTruthyS r.password = true ∧
          r.password = some password)) ∧
    (authenticateAdminRead verify password records = true ↔
      ∃ r ∈ records, jsTruthyS r.password_hash = true ∧
        verify password (r.password_hash.getD "") = true) ∧
    ((∃ flag, adminAuthServe [] true (.ok records)
        { origin := none, referer := none, body := some { password := some password } } =
          AdminResp.authenticated flag) ↔
      (records.filter (fun r => r.password = some password)).length = 1) := by
  refine ⟨authenticateAdminWrite_iff verify password records,
    authenticateAdminRead_iff verify password records, ?_⟩
  have hred : adminAuthServe [] true (.ok records)
      { origin := none, referer := none, body := some { password := some password } } =
      (match records.filter (fun r => r.password = some password) with
        | [] => AdminResp.invalidPassword
        | [r] => AdminResp.authenticated r.is_artemis_management
        | _ => AdminResp.dbError) := by
    unfold adminAuthServe
    simp [adminServeIsAllowed, jsTruthyS, hpw]
  rw [hred]
  rcases hfil : records.filter (fun r => r.password = some password) with _ | ⟨r, _ | ⟨r', tl⟩⟩ <;>
    rw [hfil] <;> simp

/-- Witness for C2 (amended): with one hashed record and one plaintext
record, the write endpoint accepts the plaintext password, the read endpoint
rejects it, and the Authenticate endpoint accepts it. -/
theorem authenticationPaths_witness :
    authenticateAdminWrite (fun _ _ => false) "p"
      [{ password_hash := none, password := some "p", is_artemis_management := false }] = true ∧
    authenticateAdminRead (fun _ _ => false) "p"
      [{ password_hash := none, password := some "p", is_artemis_management := false }] = false ∧
    adminAuthServe [] true
      (.ok [{ password_hash := none, password := some "p", is_artemis_management := false }])
      { origin := none, referer := none, body := some { password := some "p" } } =
      AdminResp.authenticated false := by
  refine ⟨?_, by decide, by decide⟩
  exact (authenticationPaths (fun _ _ => false) "p"
      [{ password_hash := none, password := some "p", is_artemis_management := false }]
      (by decide)).1.mpr
    ⟨{ password_hash := none, password := some "p", is_artemis_management := false },
     by simp, Or.inr ⟨by decide, by decide, rfl⟩⟩

/-! ## C3 — table whitelists and the order of checks -/

/-- Counterexample to **C3**: the write endpoint rejects `pipeline_note`
with `InvalidTable` even though it is one of the claimed seven accepted
names (its whitelist has only the six domain tables); and a `list` request
for `not_a_real_table` with an invalid credential fails with
`InvalidCredentials` (401), not `InvalidTable`, because authentication runs
before the table check. -/
theorem tableWhitelist_counterexample :
    (writeServe (α := String) [] 0 (some "203.0.113.7") none (some "secret") (fun _ => true)
        (some { operation := some "create", table := some "pipeline_note", id := none,
                data := some [("id", "n1")] })).1 = WriteResp.invalidTable ∧
    (readServe [] 0 (some "203.0.113.7") none (some "secret") (fun _ => false)
        (some { operation := some "list", table := some "not_a_real_table", id := none,
                filters := none }) ⟨[], [], [], [], [], []⟩).1 = ReadResp.invalidCredentials ∧
    ReadResp.invalidCredentials ≠ ReadResp.invalidTable := by
  exact ⟨by decide, by decide, by decide⟩

/-- **C3 (amended).** The read endpoint accepts exactly seven table names
(the six domain tables plus `pipeline_note`); the write endpoint accepts
only the six domain tables, so a write naming `pipeline_note` fails with
`InvalidTable`.  An authenticated `list` request naming any table outside
the read whitelist fails with `InvalidTable`; with an invalid credential the
same request fails with `InvalidCredentials` before the table is ever
examined. -/
theorem tableWhitelists (now : Int) (xff xri : Option String) (pw : String)
    (authOk : String → Bool) (hpw : pw ≠ "") :
    readAllowedTables = writeAllowedTables ++ ["pipeline_note"] ∧
    readAllowedTables.length = 7 ∧
    writeAllowedTables.length = 6 ∧
    (∀ t filters db, t ∉ readAllowedTables → authOk pw = true →
      (readServe [] now xff xri (some pw) authOk
          (some { operation := some "list", table := some t, id := none,
                  filters := filters }) db).1 = ReadResp.invalidTable) ∧
    (∀ body db, authOk pw = false →
      (readServe [] now xff xri (some pw) authOk (some body) db).1 =
        ReadResp.invalidCredentials) ∧
    (∀ d : List (String × String), authOk pw = true →
      (writeServe [] now xff xri (some pw) authOk
          (some { operation := some "create", table := some "pipeline_note", id := none,
                  data := some d })).1 = WriteResp.invalidTable) := by
  refine ⟨by decide, by decide, by decide, ?_, ?_, ?_⟩
  · intro t filters db hnot hauth
    have hcontains : readAllowedTables.contains t = false := by simpa using hnot
    unfold readServe
    simp [checkRateLimit, jsTruthyS, hpw, hauth, hcontains]
    exact fun _ => hnot
  · intro body db hauth
    unfold readServe
    simp [checkRateLimit, jsTruthyS, hpw, hauth]
  · intro d hauth
    unfold writeServe
    simp [checkRateLimit, jsTruthyS, hpw, hauth]
    exact fun hmem => absurd hmem (by decide)

/-- Witness for C3 (amended): with a valid credential, listing
`not_a_real_table` fails with `InvalidTable`, and with an invalid one the
same request fails with `InvalidCredentials`. -/
theorem tableWhitelists_witness :
    (readServe [] 0 none none (some "secret") (fun _ => true)
        (some { operation := some "list", table := some "not_a_real_table", id := none,
                filters := none }) ⟨[], [], [], [], [], []⟩).1 = ReadResp.invalidTable ∧
    (readServe [] 0 none none (some "secret") (fun _ => false)
        (some { operation := some "list", table := some "not_a_real_table", id := none,
                filters := none }) ⟨[], [], [], [], [], []⟩).1 =
      ReadResp.invalidCredentials :=
  ⟨(tableWhitelists 0 none none "secret" (fun _ => true) (by decide)).2.2.2.1
      "not_a_real_table" none ⟨[], [], [], [], [], []⟩ (by decide) rfl,
   (tableWhitelists 0 none none "secret" (fun _ => false) (by decide)).2.2.2.2.1
      { operation := some "list", table := some "not_a_real_table", id := none,
        filters := none } ⟨[], [], [], [], [], []⟩ rfl⟩

/-! ## C4 — rate limiting budgets per endpoint -/

/-- Counterexample to **C4**: the Authenticate (admin-auth) handler applies
no rate limiting — the eleventh identical request from one caller is
processed all the way to credential lookup and answers 401
`invalidPassword`, not 429 `RateLimited`.  (The handler does not even read a
clock or keep per-caller state.) -/
theorem authRateLimit_counterexample :
    (runAdminRequests [] true (.ok [])
        (List.replicate 11
          { origin := none, referer := none,
            body := some { password := some "p" } })).getLast? =
      some AdminResp.invalidPassword ∧
    AdminResp.invalidPassword ≠ AdminResp.rateLimited := by
  exact ⟨by decide, by decide⟩

/-- The rate-limit map threaded through a write-request run depends only on
the times and the caller key, not on the authentication outcome or body. -/
theorem runWriteRequests_snd {α : Type} (xff xri : Option String)
    (password : Option String) (authOk : String → Bool) (body : Option (WriteBody α)) :
    ∀ (ts : List Int) (st : RateLimitMap),
    (runWriteRequests xff xri password authOk body st ts).2 =
      (runRateCalls (jsOrS xff (jsOrS xri "unknown")) 30 (60 * 1000) st ts).2 := by
  intro ts
  induction ts with
  | nil => intro st; rfl
  | cons t ts ih =>
    intro st
    show (runWriteRequests xff xri password authOk body
        (writeServe st t xff xri password authOk body).2 ts).2 = _
    rw [ih]
    rfl

theorem runWriteRequests_append {α : Type} (xff xri : Option String)
    (password : Option String) (authOk : String → Bool) (body : Option (WriteBody α)) :
    ∀ (ts₁ ts₂ : List Int) (st : RateLimitMap),
    runWriteRequests xff xri password authOk body st (ts₁ ++ ts₂) =
      ((runWriteRequests xff xri password authOk body st ts₁).1 ++
        (runWriteRequests xff xri password authOk body
          (runWriteRequests xff xri password authOk body st ts₁).2 ts₂).1,
       (runWriteRequests xff xri password authOk body
          (runWriteRequests xff xri password authOk body st ts₁).2 ts₂).2) := by
  intro ts₁
  induction ts₁ with
  | nil => intro ts₂ st; rfl
  | cons t ts ih =>
    intro ts₂ st
    show ((writeServe st t xff xri password authOk body).1 ::
        (runWriteRequests xff xri password authOk body
          (writeServe st t xff xri password authOk body).2 (ts ++ ts₂)).1,
      (runWriteRequests xff xri password authOk body
        (writeServe st t xff xri password authOk body).2 (ts ++ ts₂)).2) = _
    rw [ih]
    rfl

theorem runReadRequests_snd (xff xri : Option String) (password : Option String)
    (authOk : String → Bool) (body : Option ReadBody) (db : ReadDb) :
    ∀ (ts : List Int) (st : RateLimitMap),
    (runReadRequests xff xri password authOk body db st ts).2 =
      (runRateCalls (jsOrS xff (jsOrS xri "unknown")) 60 (60 * 1000) st ts).2 := by
  intro ts
  induction ts with
  | nil => intro st; rfl
  | cons t ts ih =>
    intro st
    show (runReadRequests xff xri password authOk body db
        (readServe st t xff xri password authOk body db).2 ts).2 = _
    rw [ih]
    rfl

theorem runReadRequests_append (xff xri : Option String) (password : Option String)
    (authOk : String → Bool) (body : Option ReadBody) (db : ReadDb) :
    ∀ (ts₁ ts₂ : List Int) (st : RateLimitMap),
    runReadRequests xff xri password authOk body db st (ts₁ ++ ts₂) =
      ((runReadRequests xff xri password authOk body db st ts₁).1 ++
        (runReadRequests xff xri password authOk body db
          (runReadRequests xff xri password authOk body db st ts₁).2 ts₂).1,
       (runReadRequests xff xri password authOk body db
          (runReadRequests xff xri password authOk body db st ts₁).2 ts₂).2) := by
  intro ts₁
  induction ts₁ with
  | nil => intro ts₂ st; rfl
  | cons t ts ih =>
    intro ts₂ st
    show ((readServe st t xff xri password authOk body db).1 ::
        (runReadRequests xff xri password authOk body db
          (readServe st t xff xri password authOk body db).2 (ts ++ ts₂)).1,
      (runReadRequests xff xri password authOk body db
        (readServe st t xff xri password authOk body db).2 (ts ++ ts₂)).2) = _
    rw [ih]
    rfl

/-- **C4 (amended).** The Authenticate endpoint performs no rate limiting:
no input whatsoever makes `adminAuthServe` answer 429.  Rate limiting
exists only on the data endpoints, keyed by forwarded-for identity: the
write endpoint budgets 30 requests per minute — the 31st write inside one
window is rejected with 429 for every credential-checking oracle and every
body, i.e. before any credential processing — and the read endpoint budgets
60 per minute, likewise rejecting the 61st. -/
theorem rateLimitingBudgets :
    (∀ allowedDomains envOk db req,
      adminAuthServe allowedDomains envOk db req ≠ AdminResp.rateLimited) ∧
    (∀ (α : Type) (authOk : String → Bool) (body : Option (WriteBody α)),
      ((runWriteRequests (some "198.51.100.9") none (some "pw") authOk body []
          ((List.range 31).map Int.ofNat)).1.getLast? = some WriteResp.rateLimited)) ∧
    (∀ (authOk : String → Bool) (body : Option ReadBody) (db : ReadDb),
      ((runReadRequests (some "198.51.100.9") none (some "pw") authOk body db []
          ((List.range 61).map Int.ofNat)).1.getLast? = some ReadResp.rateLimited)) := by
  refine ⟨?_, ?_, ?_⟩
  · intro allowedDomains envOk db req
    rcases req with ⟨origin, referer, _ | body⟩
    · have hred : adminAuthServe allowedDomains envOk db
          { origin := origin, referer := referer, body := none } =
          (if (!adminServeIsAllowed origin referer allowedDomains &&
              decide (allowedDomains.length > 0)) = true
            then AdminResp.domainNotAllowed else AdminResp.invalidBody) := rfl
      rw [hred]
      intro h
      by_cases hA : (!adminServeIsAllowed origin referer allowedDomains &&
          decide (allowedDomains.length > 0)) = true
      · rw [if_pos hA] at h
        exact AdminResp.noConfusion h
      · rw [if_neg hA] at h
        exact AdminResp.noConfusion h
    · have hred : adminAuthServe allowedDomains envOk db
          { origin := origin, referer := referer, body := some body } =
          (if (!adminServeIsAllowed origin referer allowedDomains &&
              decide (allowedDomains.length > 0)) = true
            then AdminResp.domainNotAllowed
            else if (!jsTruthyS body.password) = true then AdminResp.passwordRequired
            else if (!envOk) = true then AdminResp.serverError
            else match db with
              | .error _ => AdminResp.dbError
              | .ok records =>
                match records.filter (fun r => r.password = some (body.password.getD "")) with
                | [] => AdminResp.invalidPassword
                | [r] => AdminResp.authenticated r.is_artemis_management
                | _ => AdminResp.dbError) := rfl
      rw [hred]
      intro h
      by_cases hA : (!adminServeIsAllowed origin referer allowedDomains &&
          decide (allowedDomains.length > 0)) = true
      · rw [if_pos hA] at h
        exact AdminResp.noConfusion h
      · rw [if_neg hA] at h
        by_cases hP : (!jsTruthyS body.password) = true
        · rw [if_pos hP] at h
          exact AdminResp.noConfusion h
        · rw [if_neg hP] at h
          by_cases hE : (!envOk) = true
          · rw [if_pos hE] at h
            exact AdminResp.noConfusion h
          · rw [if_neg hE] at h
            rcases db with e | records
            · exact AdminResp.noConfusion h
            · have h2 : (match records.filter
                    (fun r => r.password = some (body.password.getD "")) with
                  | [] => AdminResp.invalidPassword
                  | [r] => AdminResp.authenticated r.is_artemis_management
                  | _ => AdminResp.dbError) = AdminResp.rateLimited := h
              generalize records.filter
                  (fun r => r.password = some (body.password.getD "")) = fl at h2
              rcases fl with _ | ⟨r, _ | ⟨r2, tl⟩⟩ <;> exact AdminResp.noConfusion h2
  · intro α authOk body
    have hsplit : (List.range 31).map Int.ofNat =
        ((List.range 30).map Int.ofNat) ++ [(30 : Int)] := by decide
    rw [hsplit, runWriteRequests_append]
    have hstate : (runWriteRequests (α := α) (some "198.51.100.9") none (some "pw")
        authOk body [] ((List.range 30).map Int.ofNat)).2 =
        [("198.51.100.9", ⟨30, 60000⟩)] := by
      rw [runWriteRequests_snd]
      decide
    rw [hstate]
    have hlast : (runWriteRequests (α := α) (some "198.51.100.9") none (some "pw")
        authOk body [("198.51.100.9", ⟨30, 60000⟩)] [(30 : Int)]).1 =
        [WriteResp.rateLimited] := rfl
    rw [hlast]
    exact List.getLast?_concat _
  · intro authOk body db
    have hsplit : (List.range 61).map Int.ofNat =
        ((List.range 60).map Int.ofNat) ++ [(60 : Int)] := by decide
    rw [hsplit, runReadRequests_append]
    have hstate : (runReadRequests (some "198.51.100.9") none (some "pw")
        authOk body db [] ((List.range 60).map Int.ofNat)).2 =
        [("198.51.100.9", ⟨60, 60000⟩)] := by
      rw [runReadRequests_snd]
      decide
    rw [hstate]
    have hlast : (runReadRequests (some "198.51.100.9") none (some "pw")
        authOk body db [("198.51.100.9", ⟨60, 60000⟩)] [(60 : Int)]).1 =
        [ReadResp.rateLimited] := rfl
    rw [hlast]
    exact List.getLast?_concat _

/-- Witness for C4 (amended): with a permissive oracle and an empty body,
the 31st write request in one window is still the one that gets 429. -/
theorem rateLimitingBudgets_witness :
    (runWriteRequests (α := String) (some "198.51.100.9") none (some "pw")
        (fun _ => true) none [] ((List.range 31).map Int.ofNat)).1.getLast? =
      some WriteResp.rateLimited :=
  rateLimitingBudgets.2.1 String (fun _ => true) none

/-! ## C8 — the KPI aggregator and row ordering -/

theorem sortedByKeyDesc_head_max {α : Type} (key : α → Int) :
    ∀ (x : α) (l : List α), sortedByKeyDesc key (x :: l) = true →
      ∀ y ∈ x :: l, key y ≤ key x := by
  intro x l
  induction l generalizing x with
  | nil =>
    intro _ y hy
    rcases List.mem_singleton.mp hy with rfl
    exact le_refl _
  | cons b rest ih =>
    intro hs y hy
    have hparts : key b ≤ key x ∧ sortedByKeyDesc key (b :: rest) = true := by
      have := hs
      unfold sortedByKeyDesc at this
      simpa using this
    rcases List.mem_cons.mp hy with rfl | hy'
    · exact le_refl _
    · exact le_trans (ih b hparts.2 y hy') hparts.1

/-- Counterexample to **C8**: the aggregator reports `cashPositions[0]`
without re-deriving the latest row.  On the unordered row set
`[{amount 1, date 10}, {amount 2, date 20}]` it reports amount 1 and date
10, which are not those of any maximum-date row. -/
theorem latestByDate_counterexample :
    ¬ ∃ r ∈ [CashRow.mk 1 10, CashRow.mk 2 20],
        reportedCashPosition [CashRow.mk 1 10, CashRow.mk 2 20] = r.amount ∧
        reportedCashPositionDate [CashRow.mk 1 10, CashRow.mk 2 20] = some r.date ∧
        ∀ r' ∈ [CashRow.mk 1 10, CashRow.mk 2 20], r'.date ≤ r.date := by
  decide

/-- **C8 (amended).** The aggregator reports the first row of the list the
storage gateway returns for cash position and monthly burn; it relies on the
gateway's descending-date ordering rather than re-deriving the latest row.
Whenever the input is sorted by descending date (as the gateway's
`order(…, descending)` query produces) and nonempty, the reported amount and
date are those of a maximum-date row. -/
theorem latestByDate (rows : List CashRow) (burns : List BurnRow)
    (hrows : rows ≠ []) (hsorted : sortedByKeyDesc (·.date) rows = true)
    (hburns : burns ≠ []) (hbsorted : sortedByKeyDesc (·.month) burns = true) :
    (∃ r ∈ rows, reportedCashPosition rows = r.amount ∧
      reportedCashPositionDate rows = some r.date ∧
      ∀ r' ∈ rows, r'.date ≤ r.date) ∧
    (∃ b ∈ burns, reportedMonthlyBurn burns = b.amount ∧
      reportedMonthlyBurnMonth burns = some b.month ∧
      ∀ b' ∈ burns, b'.month ≤ b.month) := by
  constructor
  · rcases rows with _ | ⟨r, rest⟩
    · exact absurd rfl hrows
    · exact ⟨r, by simp, rfl, rfl, sortedByKeyDesc_head_max _ r rest hsorted⟩
  · rcases burns with _ | ⟨b, rest⟩
    · exact absurd rfl hburns
    · exact ⟨b, by simp, rfl, rfl, sortedByKeyDesc_head_max _ b rest hbsorted⟩

/-- Witness for C8 (amended): on a descending-date row set the reported cash
position is the amount of the maximum-date row. -/
theorem latestByDate_witness :
    (∃ r ∈ [CashRow.mk 5 30, CashRow.mk 7 20],
      reportedCashPosition [CashRow.mk 5 30, CashRow.mk 7 20] = r.amount ∧
      reportedCashPositionDate [CashRow.mk 5 30, CashRow.mk 7 20] = some r.date ∧
      ∀ r' ∈ [CashRow.mk 5 30, CashRow.mk 7 20], r'.date ≤ r.date) ∧
    (∃ b ∈ [BurnRow.mk 4 8], reportedMonthlyBurn [BurnRow.mk 4 8] = b.amount ∧
      reportedMonthlyBurnMonth [BurnRow.mk 4 8] = some b.month ∧
      ∀ b' ∈ [BurnRow.mk 4 8], b'.month ≤ b.month) :=
  latestByDate [CashRow.mk 5 30, CashRow.mk 7 20] [BurnRow.mk 4 8]
    (by decide) (by decide) (by decide) (by decide)

/-! ## C9 — the pipeline matrix partitions the formatted clients -/

/-- **C9.** Over the fixed segment set `{smb, mid_market, large_cap}` and
stage set `{initial_meeting, pilot_scoping, pilot, contracting}`, the matrix
cell for a segment and stage holds exactly the formatted clients with that
segment and stage; its `count` is the number of such clients and its
`totalValue` the sum of their `estimatedContractSize`; a client whose
segment or stage lies outside the fixed sets appears in no cell, yet the
flat `pipelineClients` list of the KPI snapshot carries every formatted
client. -/
theorem pipelineMatrixPartition :
    (∀ clients seg st, seg ∈ pipelineSegments → st ∈ pipelineStages →
      matrixLookup (pipelineMatrix clients) seg st = some (matrixCell clients seg st)) ∧
    (∀ clients seg st (c : FormattedClient),
      c ∈ (matrixCell clients seg st).clients ↔
        c ∈ clients ∧ c.segment = seg ∧ c.stage = st) ∧
    (∀ clients seg st,
      (matrixCell clients seg st).count =
        (clients.filter fun p => p.segment = seg && p.stage = st).length ∧
      (matrixCell clients seg st).totalValue =
        ((matrixCell clients seg st).clients.map (·.estimatedContractSize)).sum) ∧
    (∀ (c : FormattedClient) clients,
      c.segment ∉ pipelineSegments ∨ c.stage ∉ pipelineStages →
      ∀ seg ∈ pipelineSegments, ∀ st ∈ pipelineStages,
        c ∉ (matrixCell clients seg st).clients) ∧
    (∀ now db, (buildKPIs now db).pipelineClients =
        db.pipelineRows.map (formatPipelineClient now) ∧
      (buildKPIs now db).pipelineMatrix =
        pipelineMatrix (db.pipelineRows.map (formatPipelineClient now))) := by
  have hmem : ∀ (clients : List FormattedClient) seg st (c : FormattedClient),
      c ∈ (matrixCell clients seg st).clients ↔
        c ∈ clients ∧ c.segment = seg ∧ c.stage = st := by
    intro clients seg st c
    simp [matrixCell, List.mem_filter]
  refine ⟨?_, hmem, ?_, ?_, ?_⟩
  · intro clients seg st hseg hst
    simp only [pipelineSegments, List.mem_cons, List.not_mem_nil, or_false] at hseg
    simp only [pipelineStages, List.mem_cons, List.not_mem_nil, or_false] at hst
    rcases hseg with rfl | rfl | rfl <;> rcases hst with rfl | rfl | rfl | rfl <;> rfl
  · intro clients seg st
    refine ⟨rfl, ?_⟩
    show ((clients.filter fun p => p.segment = seg && p.stage = st).foldl
        (fun sum c => sum + c.estimatedContractSize) 0) = _
    rw [List.sum_eq_foldl, List.foldl_map]
    rfl
  · intro c clients hout seg hseg st hst hcell
    rcases (hmem clients seg st c).mp hcell with ⟨_, hcseg, hcst⟩
    rcases hout with hseg' | hst'
    · exact hseg' (hcseg ▸ hseg)
    · exact hst' (hcst ▸ hst)
  · intro now db
    exact ⟨rfl, rfl⟩

/-- Witness for C9: in a list holding two `smb`/`initial_meeting` clients
and one client with the out-of-set segment `enterprise`, the latter is in no
cell of the matrix although it is in the flat list. -/
theorem pipelineMatrixPartition_witness :
    (⟨"c3", "Gamma", "enterprise", "initial_meeting", 5, none, none, none, 0⟩ :
        FormattedClient) ∉
      (matrixCell
        [⟨"c1", "Alpha", "smb", "initial_meeting", 10, none, none, none, 0⟩,
         ⟨"c2", "Beta", "smb", "initial_meeting", 20, none, none, none, 0⟩,
         ⟨"c3", "Gamma", "enterprise", "initial_meeting", 5, none, none, none, 0⟩]
        "smb" "initial_meeting").clients ∧
    (matrixCell
        [⟨"c1", "Alpha", "smb", "initial_meeting", 10, none, none, none, 0⟩,
         ⟨"c2", "Beta", "smb", "initial_meeting", 20, none, none, none, 0⟩,
         ⟨"c3", "Gamma", "enterprise", "initial_meeting", 5, none, none, none, 0⟩]
        "smb" "initial_meeting").count = 2 :=
  ⟨pipelineMatrixPartition.2.2.2.1
      ⟨"c3", "Gamma", "enterprise", "initial_meeting", 5, none, none, none, 0⟩
      [⟨"c1", "Alpha", "smb", "initial_meeting", 10, none, none, none, 0⟩,
       ⟨"c2", "Beta", "smb", "initial_meeting", 20, none, none, none, 0⟩,
       ⟨"c3", "Gamma", "enterprise", "initial_meeting", 5, none, none, none, 0⟩]
      (Or.inl (by decide)) "smb" (by decide) "initial_meeting" (by decide),
   by decide⟩

end InvestorDash
